import Mathlib

/-!
Shallow embedding of `bevy_compute_readback` (src/lib.rs): the dispatch
state machine (`ComputeNode::update`), the reset operation
(`ComputeNode::reset_on_change`), the render-graph node entry point
(`ComputeNode::run`), the cross-context synchronizer
(`ComputeNodeState::extract_to_main` with its `run_if(resource_changed)`
condition), and the readback controller handlers
(`ComputeShaderReadback::on_shader_ready` / `on_shader_complete`).
-/

namespace BevyComputeReadback

/-- `ComputeNodeStatus` enum from src/lib.rs (lines 210-218). -/
inductive ComputeNodeStatus
  | Loading
  | Init
  | Ready
  | Completed
  | Error
deriving DecidableEq, Repr

/-- `ReadbackLimit` enum from src/lib.rs (lines 123-130). -/
inductive ReadbackLimit
  | Infinite
  | Finite (n : Nat)
deriving DecidableEq, Repr

/-- The compile status returned by
`PipelineCache::get_compute_pipeline_state` as matched in
`ComputeNode::update` (lines 367, 381-383): `Ok`, `Creating`, `Queued`,
`Err`.  Payloads are irrelevant to the control flow and omitted. -/
inductive CachedPipelineState
  | Ok
  | Creating
  | Queued
  | Err
deriving DecidableEq, Repr

/-- The mutable fields of `ComputeNode<S>` (lines 329-334): current
status, readback limit, dispatch counter. -/
structure ComputeNode where
  status : ComputeNodeStatus
  limit : ReadbackLimit
  count : Nat
deriving DecidableEq, Repr

/-- `ComputeNode::default` with a configured limit (lines 335-344,
105-108): status `Loading` (the `ComputeNodeStatus` default), count 0. -/
def ComputeNode.default (limit : ReadbackLimit) : ComputeNode :=
  { status := .Loading, limit := limit, count := 0 }

/-- The `next_status` computation of `ComputeNode::update`
(lines 367-384), together with the count mutation performed inside the
match: returns the updated count and the computed next status. -/
def ComputeNode.nextCountStatus (compile : CachedPipelineState)
    (node : ComputeNode) : Nat × ComputeNodeStatus :=
  match compile with
  | .Ok =>
    match node.status, node.limit with
    | .Completed, _ => (node.count, .Completed)
    | _, .Finite limit =>
      if node.count < limit then (node.count + 1, .Ready)
      else (0, .Completed)
    | _, _ => (node.count, .Ready)
  | .Creating => (node.count, .Loading)
  | .Queued => (node.count, .Loading)
  | .Err => (node.count, .Error)

/-- `ComputeNode::update` (lines 362-390).  Returns the updated node and
the write to the `ComputeNodeState<S>` resource: `some s` when the status
changed and `s` was published (lines 386-389), `none` when the resource
was left untouched. -/
def ComputeNode.update (compile : CachedPipelineState)
    (node : ComputeNode) : ComputeNode × Option ComputeNodeStatus :=
  let (count, next_status) := ComputeNode.nextCountStatus compile node
  if node.status = next_status then
    ({ node with count := count }, none)
  else
    ({ node with status := next_status, count := count }, some next_status)

/-- `ComputeNode::reset_on_change` (lines 345-361) in the case where the
node is found in the render graph: sets the node's count to 0 and status
to `Loading`, and overwrites the `ComputeNodeState<S>` resource with
status `Loading`.  (When the node has been removed from the graph the
system returns early and touches nothing.)  Returns the updated node and
the status written to the resource. -/
def ComputeNode.reset (node : ComputeNode) :
    ComputeNode × ComputeNodeStatus :=
  ({ node with count := 0, status := .Loading }, .Loading)

/-- Iterating `ComputeNode::update` with a fixed compile status, one step
per frame. -/
def iterateUpdate (compile : CachedPipelineState) (node : ComputeNode) :
    Nat → ComputeNode
  | 0 => node
  | k + 1 => (ComputeNode.update compile (iterateUpdate compile node k)).1

/-- Running `ComputeNode::update` over a sequence of per-frame compile
statuses. -/
def runUpdates (inputs : List CachedPipelineState) (node : ComputeNode) :
    ComputeNode :=
  inputs.foldl (fun acc c => (ComputeNode.update c acc).1) node

/-- State visible at a frame boundary for the cross-context
synchronization pipeline: the render-world node, the render-world
`ComputeNodeState<S>` resource (only its status field matters, lines
222-226), the pending `NextState` in the main world, and the main-world
state value (`AppState`). -/
structure SystemState where
  node : ComputeNode
  nodeState : ComputeNodeStatus
  pending : Option ComputeNodeStatus
  app : ComputeNodeStatus
deriving DecidableEq, Repr

/-- Initial system state at registration: node at its default, both the
render-world resource and the main-world state at the `Loading` default
(`init_resource` line 76, `init_state` line 59), no pending `NextState`. -/
def SystemState.init (limit : ReadbackLimit) : SystemState :=
  { node := ComputeNode.default limit
    nodeState := .Loading
    pending := none
    app := .Loading }

/-- One frame of the cross-context pipeline, per the per-frame ordering
of the spec (app applies the pending `NextState`; the node updates,
writing the `ComputeNodeState` resource only on change; the synchronizer
`extract_to_main` (lines 254-262) runs at the hand-off point only when
the resource changed this frame, per `run_if(resource_changed)` at lines
83-87, and sets `NextState` to the resource's value). -/
def SystemState.frame (compile : CachedPipelineState) (s : SystemState) :
    SystemState :=
  let app := Option.getD s.pending s.app
  let (node, publish) := ComputeNode.update compile s.node
  { node := node
    nodeState := Option.getD publish s.nodeState
    pending := publish
    app := app }

/-- Whether `ComputeNodeState::extract_to_main` executes on this frame:
its `run_if(resource_changed::<ComputeNodeState<S>>)` condition (lines
83-87) is true exactly when `ComputeNode::update` wrote the resource this
frame. -/
def SystemState.syncRuns (compile : CachedPipelineState)
    (s : SystemState) : Bool :=
  ((ComputeNode.update compile s.node).2).isSome

/-- Running the frame pipeline over a sequence of per-frame compile
statuses. -/
def runFrames (inputs : List CachedPipelineState) (s : SystemState) :
    SystemState :=
  inputs.foldl (fun acc c => SystemState.frame c acc) s

/-- Stand-in for bevy's `Readback` component: a descriptor of the buffer
or texture to copy back. -/
inductive Readback
  | buffer (id : Nat)
  | texture (id : Nat)
deriving DecidableEq, Repr

/-- `ComputeShaderReadback::on_shader_ready` (lines 150-160), run on
entry into `Ready`, for one readback entity: if the shader exposes a
readback descriptor (`compute_shader.readback()` is `Some`), insert it
(replacing any attached one); otherwise the entity is left as is. -/
def on_shader_ready (shader_readback : Option Readback)
    (attached : Option Readback) : Option Readback :=
  match shader_readback with
  | some r => some r
  | none => attached

/-- `ComputeShaderReadback::on_shader_complete` (lines 162-169), run on
entry into `Completed`: removes any attached `Readback` component. -/
def on_shader_complete (_attached : Option Readback) : Option Readback :=
  none

/-- The `ComputeShader::readback` trait default (lines 194-197): `None`. -/
def default_shader_readback : Option Readback := none

/-- Stand-in for a prepared `BindGroup` stored in
`ComputeShaderBindGroup<S>` (lines 202-207). -/
structure BindGroup where
  id : Nat
deriving DecidableEq, Repr

/-- Outcome of `ComputeNode::run` (lines 392-417).  `missingBindGroup`
models the panic of `world.resource::<ComputeShaderBindGroup<S>>()` when
the resource is absent (line 400); `ok d` models a normal return, with
`d` true iff a compute pass was dispatched. -/
inductive NodeRunResult
  | missingBindGroup
  | ok (dispatched : Bool)
deriving DecidableEq, Repr

/-- `ComputeNode::run` (lines 392-417): fetches the bind group resource
first (line 400, panicking when absent), then dispatches exactly when the
status is `Ready` and `get_compute_pipeline` returns the pipeline
(`pipeline_compiled`). -/
def ComputeNode.run (bind_group : Option BindGroup)
    (pipeline_compiled : Bool) (node : ComputeNode) : NodeRunResult :=
  match bind_group with
  | none => .missingBindGroup
  | some _ => .ok (decide (node.status = .Ready) && pipeline_compiled)

/-- A step of the render-world node: one `ComputeNode::update` under some
compile status, or one `ComputeNode::reset_on_change`. -/
inductive Step : ComputeNode → ComputeNode → Prop
  | update (c : CachedPipelineState) (n : ComputeNode) :
      Step n (ComputeNode.update c n).1
  | reset (n : ComputeNode) : Step n (ComputeNode.reset n).1

/-- Cross-context invariant: the value the app-side state will hold after
applying any pending `NextState` equals the render-world resource. -/
def SyncInv (s : SystemState) : Prop :=
  Option.getD s.pending s.app = s.nodeState

theorem update_limit (c : CachedPipelineState) (n : ComputeNode) :
    (ComputeNode.update c n).1.limit = n.limit := by
  rcases n with ⟨st, lim, cnt⟩
  cases c <;> cases st <;> cases lim <;>
    simp [ComputeNode.update, ComputeNode.nextCountStatus] <;>
    split_ifs <;> rfl

theorem update_ok_ready_lt {n k : Nat} (h : k < n) :
    ComputeNode.update .Ok ⟨.Ready, .Finite n, k⟩ =
      (⟨.Ready, .Finite n, k + 1⟩, none) := by
  simp [ComputeNode.update, ComputeNode.nextCountStatus, h]

theorem update_ok_ready_exhausted {n k : Nat} (h : ¬ k < n) :
    ComputeNode.update .Ok ⟨.Ready, .Finite n, k⟩ =
      (⟨.Completed, .Finite n, 0⟩, some .Completed) := by
  simp [ComputeNode.update, ComputeNode.nextCountStatus, h]

theorem update_ok_completed (lim : ReadbackLimit) (k : Nat) :
    ComputeNode.update .Ok ⟨.Completed, lim, k⟩ =
      (⟨.Completed, lim, k⟩, none) := by
  cases lim <;> simp [ComputeNode.update, ComputeNode.nextCountStatus]

theorem iterateUpdate_ok_finite (n k : Nat) :
    iterateUpdate .Ok (ComputeNode.default (.Finite n)) k =
      if k = 0 then ComputeNode.default (.Finite n)
      else if k ≤ n then ⟨.Ready, .Finite n, k⟩
      else ⟨.Completed, .Finite n, 0⟩ := by
  induction k with
  | zero => simp [iterateUpdate]
  | succ k ih =>
    rw [iterateUpdate, ih]
    rcases Nat.eq_zero_or_pos k with h0 | h0
    · subst h0
      by_cases hn : 0 < n
      · simp [ComputeNode.default, ComputeNode.update,
          ComputeNode.nextCountStatus, hn, Nat.le_of_lt_succ]
      · have hn0 : n = 0 := by omega
        subst hn0
        decide
    · by_cases hk : k ≤ n
      · by_cases hlt : k < n
        · rw [if_neg (by omega), if_pos hk, update_ok_ready_lt hlt,
            if_neg (by omega), if_pos (by omega)]
        · rw [if_neg (by omega), if_pos hk, update_ok_ready_exhausted hlt,
            if_neg (by omega), if_neg (by omega)]
      · rw [if_neg (by omega), if_neg hk, update_ok_completed,
          if_neg (by omega), if_neg (by omega)]

theorem runUpdates_cons (c : CachedPipelineState)
    (cs : List CachedPipelineState) (n : ComputeNode) :
    runUpdates (c :: cs) n = runUpdates cs (ComputeNode.update c n).1 := rfl

theorem update_infinite_not_completed (c : CachedPipelineState)
    {n : ComputeNode} (hlim : n.limit = .Infinite)
    (h : n.status ≠ .Completed) :
    (ComputeNode.update c n).1.status ≠ .Completed := by
  rcases n with ⟨st, lim, cnt⟩
  simp only at hlim h
  subst hlim
  cases c <;> cases st <;>
    simp_all [ComputeNode.update, ComputeNode.nextCountStatus]

theorem runUpdates_infinite_not_completed
    (inputs : List CachedPipelineState) :
    ∀ n : ComputeNode, n.limit = .Infinite → n.status ≠ .Completed →
      (runUpdates inputs n).status ≠ .Completed := by
  induction inputs with
  | nil => intro n _ h; exact h
  | cons c cs ih =>
    intro n hlim h
    rw [runUpdates_cons]
    exact ih _ (by rw [update_limit]; exact hlim)
      (update_infinite_not_completed c hlim h)

theorem update_no_err_loading_ready (c : CachedPipelineState)
    {n : ComputeNode} (hlim : n.limit = .Infinite) (hc : c ≠ .Err)
    (h : n.status = .Loading ∨ n.status = .Ready) :
    (ComputeNode.update c n).1.status = .Loading ∨
    (ComputeNode.update c n).1.status = .Ready := by
  rcases n with ⟨st, lim, cnt⟩
  simp only at hlim h
  subst hlim
  cases c <;> cases st <;>
    simp_all [ComputeNode.update, ComputeNode.nextCountStatus]

theorem runUpdates_no_err_loading_ready
    (inputs : List CachedPipelineState) :
    ∀ n : ComputeNode, n.limit = .Infinite →
      (n.status = .Loading ∨ n.status = .Ready) →
      (∀ c ∈ inputs, c ≠ .Err) →
      (runUpdates inputs n).status = .Loading ∨
      (runUpdates inputs n).status = .Ready := by
  induction inputs with
  | nil => intro n _ h _; exact h
  | cons c cs ih =>
    intro n hlim h hcs
    rw [runUpdates_cons]
    exact ih _ (by rw [update_limit]; exact hlim)
      (update_no_err_loading_ready c hlim (hcs c (by simp)) h)
      (fun d hd => hcs d (by simp [hd]))

theorem update_fst_status (c : CachedPipelineState) (n : ComputeNode) :
    (ComputeNode.update c n).1.status = (ComputeNode.nextCountStatus c n).2 := by
  rcases hp : ComputeNode.nextCountStatus c n with ⟨cnt, st⟩
  simp only [ComputeNode.update, hp]
  split_ifs with h
  · simpa using h
  · rfl

theorem update_fst_count (c : CachedPipelineState) (n : ComputeNode) :
    (ComputeNode.update c n).1.count = (ComputeNode.nextCountStatus c n).1 := by
  rcases hp : ComputeNode.nextCountStatus c n with ⟨cnt, st⟩
  simp only [ComputeNode.update, hp]
  split_ifs <;> rfl

theorem step_completed_count_zero {a b : ComputeNode} (h : Step a b)
    (ha : a.status = .Completed → a.count = 0) :
    b.status = .Completed → b.count = 0 := by
  cases h with
  | update c n =>
    intro hb
    rw [update_fst_status] at hb
    rw [update_fst_count]
    rcases a with ⟨st, lim, cnt⟩
    cases c <;> cases st <;> cases lim <;>
      simp_all [ComputeNode.nextCountStatus] <;>
      split_ifs at hb ⊢ <;> simp_all
  | reset n =>
    intro hb
    simp [ComputeNode.reset] at hb

theorem syncInv_init (limit : ReadbackLimit) :
    SyncInv (SystemState.init limit) := rfl

theorem syncInv_frame {s : SystemState} (c : CachedPipelineState)
    (h : SyncInv s) : SyncInv (SystemState.frame c s) := by
  unfold SyncInv at *
  rcases hp : ComputeNode.update c s.node with ⟨nd, pb⟩
  cases pb <;> simp_all [SystemState.frame, hp]

theorem runFrames_cons (c : CachedPipelineState)
    (cs : List CachedPipelineState) (s : SystemState) :
    runFrames (c :: cs) s = runFrames cs (SystemState.frame c s) := rfl

theorem syncInv_runFrames (inputs : List CachedPipelineState) :
    ∀ s : SystemState, SyncInv s → SyncInv (runFrames inputs s) := by
  induction inputs with
  | nil => intro s h; exact h
  | cons c cs ih =>
    intro s h
    rw [runFrames_cons]
    exact ih _ (syncInv_frame c h)

/-- C1 counterexample: Error is not sticky in `ComputeNode::update`.
From the initial node, an `Err` compile result yields status `Error`, but
a subsequent `Ok` compile result moves the status to `Ready`, not
`Error` — refuting the claim that after an observed `Err` the status
remains `Error` for every later input sequence. -/
theorem c1_error_sticky_counterexample :
    (runUpdates [.Err] (ComputeNode.default .Infinite)).status = .Error ∧
    (runUpdates [.Err, .Ok] (ComputeNode.default .Infinite)).status
      = .Ready := by
  decide

/-- C1 (amended): from status `Error`, `ComputeNode::update` keeps the
status `Error` exactly while the compile status reads `Err`; a
`Creating`/`Queued` compile status moves it back to `Loading`, and an
`Ok` compile status moves it out of `Error` (to `Ready`, or `Completed`
on an exhausted finite budget). -/
theorem c1_error_persists_only_under_err (n : ComputeNode)
    (c : CachedPipelineState) (h : n.status = .Error) :
    (c = .Err → (ComputeNode.update c n).1.status = .Error) ∧
    ((c = .Creating ∨ c = .Queued) →
      (ComputeNode.update c n).1.status = .Loading) ∧
    (c = .Ok → (ComputeNode.update c n).1.status ≠ .Error) := by
  rcases n with ⟨st, lim, cnt⟩
  simp only at h
  subst h
  cases c <;> cases lim <;>
    simp [ComputeNode.update, ComputeNode.nextCountStatus] <;>
    split_ifs <;> simp_all

/-- C1 witness: the amended behavior at the concrete state
(Error, Infinite, count 0) under each compile input. -/
theorem c1_error_witness :
    (ComputeNode.update .Err
      ⟨.Error, .Infinite, 0⟩).1.status = .Error ∧
    (ComputeNode.update .Queued
      ⟨.Error, .Infinite, 0⟩).1.status = .Loading ∧
    (ComputeNode.update .Ok
      ⟨.Error, .Infinite, 0⟩).1.status ≠ .Error :=
  ⟨(c1_error_persists_only_under_err ⟨.Error, .Infinite, 0⟩ .Err rfl).1
      rfl,
   (c1_error_persists_only_under_err ⟨.Error, .Infinite, 0⟩ .Queued
      rfl).2.1 (Or.inr rfl),
   (c1_error_persists_only_under_err ⟨.Error, .Infinite, 0⟩ .Ok
      rfl).2.2 rfl⟩

/-- C2 counterexample: the synchronizer `extract_to_main` does not
execute every frame unconditionally.  On a frame where the compile status
is `Queued` and the node starts at the initial state, the status stays
`Loading`, the `ComputeNodeState` resource is not written, and the
`run_if(resource_changed)` condition is false: the system does not run. -/
theorem c2_sync_unconditional_counterexample :
    SystemState.syncRuns .Queued (SystemState.init .Infinite) = false := by
  decide

/-- C2 (amended): the synchronizer runs only on frames where the
`ComputeNodeState` resource changed, yet the app-side state sampled at
frame K+1 still equals the render-side `nodeState` at the end of frame K,
for every frame K and every compile-status history — no transition is
skipped, because on frames without a resource write the app state already
holds that value. -/
theorem c2_one_frame_latency (limit : ReadbackLimit)
    (inputs : List CachedPipelineState) (c : CachedPipelineState) :
    (SystemState.frame c (runFrames inputs (SystemState.init limit))).app
      = (runFrames inputs (SystemState.init limit)).nodeState := by
  have h := syncInv_runFrames inputs (SystemState.init limit)
    (syncInv_init limit)
  rcases hp : ComputeNode.update c
    (runFrames inputs (SystemState.init limit)).node with ⟨nd, pb⟩
  simp only [SystemState.frame, hp]
  exact h

/-- C3: with limit Finite(n), continuously-`Ok` compile status and the
initial state (Loading, count 0), iterating `ComputeNode::update` yields
status Ready with count k on each frame k with 1 ≤ k ≤ n, and status
Completed with count 0 on every frame k > n. -/
theorem c3_finite_ready_then_completed (n k : Nat) :
    (1 ≤ k → k ≤ n →
      (iterateUpdate .Ok (ComputeNode.default (.Finite n)) k).status
          = .Ready ∧
      (iterateUpdate .Ok (ComputeNode.default (.Finite n)) k).count = k) ∧
    (n < k →
      (iterateUpdate .Ok (ComputeNode.default (.Finite n)) k).status
          = .Completed ∧
      (iterateUpdate .Ok (ComputeNode.default (.Finite n)) k).count
          = 0) := by
  rw [iterateUpdate_ok_finite]
  constructor
  · intro h1 h2
    rw [if_neg (by omega), if_pos h2]
    exact ⟨rfl, rfl⟩
  · intro h
    rw [if_neg (by omega), if_neg (by omega)]
    exact ⟨rfl, rfl⟩

/-- C3 witness: limit Finite(3): Ready with count 2 on frame 2,
Completed with count 0 on frame 5. -/
theorem c3_finite_witness :
    ((iterateUpdate .Ok (ComputeNode.default (.Finite 3)) 2).status
        = .Ready ∧
     (iterateUpdate .Ok (ComputeNode.default (.Finite 3)) 2).count
        = 2) ∧
    ((iterateUpdate .Ok (ComputeNode.default (.Finite 3)) 5).status
        = .Completed ∧
     (iterateUpdate .Ok (ComputeNode.default (.Finite 3)) 5).count
        = 0) :=
  ⟨(c3_finite_ready_then_completed 3 2).1 (by decide) (by decide),
   (c3_finite_ready_then_completed 3 5).2 (by decide)⟩

/-- C4 counterexample: the dispatch counter does increment on a step
whose pre-state status is `Error`.  With limit Finite(2), after an `Err`
input the node is at status Error with count 0; the next `Ok` input
increments the counter to 1 — refuting the claim that the counter never
increments on a step whose pre-state status is Completed or Error. -/
theorem c4_increment_counterexample :
    (runUpdates [.Err] (ComputeNode.default (.Finite 2))).status
        = .Error ∧
    (runUpdates [.Err, .Ok] (ComputeNode.default (.Finite 2))).count =
      (runUpdates [.Err] (ComputeNode.default (.Finite 2))).count
        + 1 := by
  decide

/-- C4 (amended): the dispatch counter increments only on a step with an
`Ok` compile status, from a pre-state whose status is not `Completed`
(any of Loading, Init, Ready, or Error), landing in `Ready`, with
remaining Finite budget (count < n); it never increments on a step whose
pre-state status is `Completed`. -/
theorem c4_increment_characterization (c : CachedPipelineState)
    (n : ComputeNode)
    (h : (ComputeNode.update c n).1.count = n.count + 1) :
    n.status ≠ .Completed ∧ c = .Ok ∧
    (ComputeNode.update c n).1.status = .Ready ∧
    ∃ m, n.limit = .Finite m ∧ n.count < m := by
  rw [update_fst_count] at h
  rw [update_fst_status]
  rcases n with ⟨st, lim, cnt⟩
  cases c <;> cases st <;> cases lim <;>
    simp_all [ComputeNode.nextCountStatus] <;>
    split_ifs at h ⊢ <;> simp_all

/-- C4 witness: the amended characterization at the concrete step from
the initial node with limit Finite(2) under an `Ok` compile status. -/
theorem c4_increment_witness :
    (ComputeNode.default (.Finite 2)).status ≠ .Completed ∧
    CachedPipelineState.Ok = .Ok ∧
    (ComputeNode.update .Ok
      (ComputeNode.default (.Finite 2))).1.status = .Ready ∧
    ∃ m, (ComputeNode.default (.Finite 2)).limit = .Finite m ∧
      (ComputeNode.default (.Finite 2)).count < m :=
  c4_increment_characterization .Ok (ComputeNode.default (.Finite 2))
    (by decide)

/-- C5 counterexample: for a shader using the default
`ComputeShader::readback` (which returns `None`), the entry-into-Ready
handler `on_shader_ready` attaches nothing: right after it runs, no
`Readback` component is present even though the app state is Ready —
refuting "for every entry into Ready a readback descriptor is attached
and present". -/
theorem c5_presence_counterexample :
    (on_shader_ready default_shader_readback none).isSome = false := by
  decide

/-- C5 (amended): when the shader supplies a readback descriptor
(`readback()` is `Some`), the entry-into-Ready handler leaves one
attached and the entry-into-Completed handler leaves none; when the
shader supplies none, the entry-into-Ready handler leaves the attachment
unchanged (in particular absent when nothing was attached). -/
theorem c5_readback_presence (r : Readback) (a : Option Readback) :
    (on_shader_ready (some r) a).isSome = true ∧
    (on_shader_complete a).isSome = false ∧
    on_shader_ready none a = a := by
  simp [on_shader_ready, on_shader_complete]

/-- C6: with limit Infinite, from the initial state, `Completed` is never
reached by any sequence of `ComputeNode::update` steps; and when the
compile status is never `Err`, the status takes only the values `Loading`
and `Ready`. -/
theorem c6_infinite_never_completed (inputs : List CachedPipelineState) :
    (runUpdates inputs (ComputeNode.default .Infinite)).status
        ≠ .Completed ∧
    ((∀ c ∈ inputs, c ≠ .Err) →
      (runUpdates inputs (ComputeNode.default .Infinite)).status
          = .Loading ∨
      (runUpdates inputs (ComputeNode.default .Infinite)).status
          = .Ready) :=
  ⟨runUpdates_infinite_not_completed inputs
      (ComputeNode.default .Infinite) rfl (by decide),
   fun hcs => runUpdates_no_err_loading_ready inputs
      (ComputeNode.default .Infinite) rfl (Or.inl rfl) hcs⟩

/-- C6 witness: the concrete history [Queued, Ok, Creating] never reaches
Completed and ends in Loading or Ready. -/
theorem c6_infinite_witness :
    (runUpdates [.Queued, .Ok, .Creating]
      (ComputeNode.default .Infinite)).status ≠ .Completed ∧
    ((runUpdates [.Queued, .Ok, .Creating]
        (ComputeNode.default .Infinite)).status = .Loading ∨
     (runUpdates [.Queued, .Ok, .Creating]
        (ComputeNode.default .Infinite)).status = .Ready) :=
  ⟨(c6_infinite_never_completed [.Queued, .Ok, .Creating]).1,
   (c6_infinite_never_completed [.Queued, .Ok, .Creating]).2
      (by decide)⟩

/-- C7: `ComputeNode::reset_on_change` (node present in the graph) always
yields status Loading, count 0, publishes Loading to `ComputeNodeState`,
and is idempotent: resetting the already-reset node gives the same
result. -/
theorem c7_reset_idempotent (n : ComputeNode) :
    (ComputeNode.reset n).1.status = .Loading ∧
    (ComputeNode.reset n).1.count = 0 ∧
    (ComputeNode.reset n).2 = .Loading ∧
    ComputeNode.reset (ComputeNode.reset n).1 = ComputeNode.reset n := by
  simp [ComputeNode.reset]

/-- C8: `ComputeNode::update` publishes to the `ComputeNodeState`
resource exactly when the computed next status differs from the current
status; when equal, the resource is left untouched (no write) and the
node status is unchanged. -/
theorem c8_publish_only_on_change (c : CachedPipelineState)
    (n : ComputeNode) :
    ((ComputeNode.nextCountStatus c n).2 = n.status →
      (ComputeNode.update c n).2 = none ∧
      (ComputeNode.update c n).1.status = n.status) ∧
    ((ComputeNode.nextCountStatus c n).2 ≠ n.status →
      (ComputeNode.update c n).2
        = some (ComputeNode.nextCountStatus c n).2) := by
  rcases hp : ComputeNode.nextCountStatus c n with ⟨cnt, st⟩
  simp only [ComputeNode.update, hp]
  by_cases h : n.status = st
  · simp [h]
  · have h2 : ¬ st = n.status := fun hs => h hs.symm
    simp [h, h2]

/-- C8 witness: from the initial node, a `Queued` compile status leaves
the resource untouched; an `Ok` compile status publishes `Ready`. -/
theorem c8_publish_witness :
    (ComputeNode.update .Queued (ComputeNode.default .Infinite)).2
        = none ∧
    (ComputeNode.update .Ok (ComputeNode.default .Infinite)).2
        = some .Ready :=
  ⟨((c8_publish_only_on_change .Queued
      (ComputeNode.default .Infinite)).1 (by decide)).1,
   (c8_publish_only_on_change .Ok
      (ComputeNode.default .Infinite)).2 (by decide)⟩

/-- C9: `ComputeNode::run` fetches the bind group resource before
checking the status, so its absence is fatal on every frame — including
frames whose status is not Ready, where no dispatch would be issued. -/
theorem c9_run_bind_group_fatal (pc : Bool) (n : ComputeNode) :
    ComputeNode.run none pc n = .missingBindGroup ∧
    (n.status ≠ .Ready →
      ∀ bg : BindGroup, ComputeNode.run (some bg) pc n = .ok false) := by
  refine ⟨rfl, fun h bg => ?_⟩
  simp [ComputeNode.run, h]

/-- C9 witness: at the initial node (status Loading, not Ready) with the
pipeline compiled, a missing bind group is fatal although a present one
dispatches nothing. -/
theorem c9_run_witness :
    ComputeNode.run none true (ComputeNode.default .Infinite)
        = .missingBindGroup ∧
    ComputeNode.run (some ⟨0⟩) true (ComputeNode.default .Infinite)
        = .ok false :=
  ⟨(c9_run_bind_group_fatal true (ComputeNode.default .Infinite)).1,
   (c9_run_bind_group_fatal true (ComputeNode.default .Infinite)).2
      (by decide) ⟨0⟩⟩

/-- C10: in every node state reachable from the initial state by update
and reset steps, status Completed implies count 0. -/
theorem c10_completed_count_zero (limit : ReadbackLimit)
    (m : ComputeNode)
    (h : Relation.ReflTransGen Step (ComputeNode.default limit) m) :
    m.status = .Completed → m.count = 0 := by
  induction h with
  | refl => intro hm; simp [ComputeNode.default] at hm
  | tail h1 h2 ih => exact step_completed_count_zero h2 ih

/-- C10 witness: the concrete reachable state after two `Ok` updates with
limit Finite(1) is Completed with count 0. -/
theorem c10_completed_witness :
    (ComputeNode.update .Ok
      (ComputeNode.update .Ok
        (ComputeNode.default (.Finite 1))).1).1.count = 0 :=
  c10_completed_count_zero (.Finite 1) _
    (Relation.ReflTransGen.tail
      (Relation.ReflTransGen.single
        (Step.update .Ok (ComputeNode.default (.Finite 1))))
      (Step.update .Ok
        (ComputeNode.update .Ok (ComputeNode.default (.Finite 1))).1))
    (by decide)

end BevyComputeReadback
